import Mathlib

/-!
Verification of the SignBot core pipelines: the text-to-animation
synthesizer and keyframe playback engine (src/services/avatarService.ts),
and the frame-sampling, gesture-classification and queue-deduplication
loop (src/services/gestureRecognition.ts, src/components/VideoInput.tsx).

Numbers (pose coordinates, rotations, timestamps, confidences) are
embedded as rationals; JavaScript strings as Lean strings.  Ambient
nondeterminism in the source (Math.random, Date.now and the synthetic
trigonometric landmark simulation) is modelled by explicit oracle
parameters: a stream of values standing for successive Math.random()
draws, and a function producing the synthetic landmarks of a frame.
-/

namespace SignBot

/-- One limb's relative offset and rotation, the inline
record type of leftArm and rightArm in AvatarKeyframe (src/types). -/
structure PoseComponent where
  x : ℚ
  y : ℚ
  rotation : ℚ
deriving DecidableEq

/-- The head pose, the inline record type of head in AvatarKeyframe. -/
structure HeadPose where
  rotation : ℚ
deriving DecidableEq

/-- The expression union type of AvatarKeyframe (src/types). -/
inductive Expression where
  | neutral
  | happy
  | questioning
deriving DecidableEq

/-- AvatarKeyframe from src/types: a timestamped pose. -/
structure AvatarKeyframe where
  timestamp : ℚ
  leftArm : PoseComponent
  rightArm : PoseComponent
  head : HeadPose
  expression : Expression
deriving DecidableEq

/-- AvatarAnimation from src/types. -/
structure AvatarAnimation where
  name : String
  keyframes : List AvatarKeyframe
  duration : ℚ
deriving DecidableEq

/-- The anonymous record value pushed for the neutral rest pose in
textToAnimation (avatarService.ts): both arms at the origin with zero
rotation, head rotation zero, neutral expression. -/
def restKeyframe (t : ℚ) : AvatarKeyframe :=
  ⟨t, ⟨0, 0, 0⟩, ⟨0, 0, 0⟩, ⟨0⟩, .neutral⟩

/-- The pose part of a keyframe as returned by getGestureForWord
(avatarService.ts): arms and head, without timestamp or expression. -/
structure GesturePose where
  leftArm : PoseComponent
  rightArm : PoseComponent
  head : HeadPose
deriving DecidableEq

/-- The static word-to-pose object literal inside getGestureForWord
(avatarService.ts lines 92-118); lookup of a key not present in the
object yields none (JavaScript undefined). -/
def gestureTable (word : String) : Option GesturePose :=
  if word = "hello" then some ⟨⟨-30, -20, 45⟩, ⟨30, -20, -45⟩, ⟨0⟩⟩
  else if word = "help" then some ⟨⟨0, -30, 0⟩, ⟨0, -30, 0⟩, ⟨5⟩⟩
  else if word = "thank" then some ⟨⟨-20, -10, 30⟩, ⟨20, -10, -30⟩, ⟨-5⟩⟩
  else if word = "you" then some ⟨⟨0, 0, 0⟩, ⟨15, -15, -20⟩, ⟨0⟩⟩
  else if word = "good" then some ⟨⟨-25, -25, 60⟩, ⟨25, -25, -60⟩, ⟨0⟩⟩
  else none

/-- getGestureForWord (avatarService.ts lines 91-125).  The stream s
models successive Math.random() results and k is the index of the next
unconsumed draw; a tabled word consumes no draws, an out-of-vocabulary
word consumes seven (left arm x, y, rotation; right arm x, y, rotation;
head rotation, in source evaluation order). -/
def getGestureForWord (s : ℕ → ℚ) (k : ℕ) (word : String) : GesturePose × ℕ :=
  match gestureTable word with
  | some g => (g, k)
  | none =>
    (⟨⟨s k * 40 - 20, s (k + 1) * 20 - 10, s (k + 2) * 60 - 30⟩,
      ⟨s (k + 3) * 40 - 20, s (k + 4) * 20 - 10, s (k + 5) * 60 - 30⟩,
      ⟨s (k + 6) * 20 - 10⟩⟩, k + 7)

/-- getExpressionForWord (avatarService.ts lines 127-135). -/
def getExpressionForWord (word : String) : Expression :=
  if word ∈ ["good", "great", "wonderful", "happy", "thank"] then .happy
  else if word ∈ ["what", "how", "why", "when", "where", "?"] then .questioning
  else .neutral

/-- Splitting a character list at every space character, the semantics of
the JavaScript call text.split of avatarService.ts line 51 with the
single-space separator: the empty string yields the one-element list
holding the empty string, and consecutive spaces yield empty words. -/
def splitSpaceChars : List Char → List (List Char)
  | [] => [[]]
  | c :: cs =>
    let rest := splitSpaceChars cs
    if c = ' ' then [] :: rest
    else
      match rest with
      | [] => [[c]]
      | w :: ws => (c :: w) :: ws

/-- The toLowerCase call of avatarService.ts line 51, mapped over the
string's characters. -/
def toLowerString (s : String) : String := String.mk (s.data.map Char.toLower)

/-- The word list of textToAnimation line 51:
text.toLowerCase().split with a single-space separator. -/
def splitWords (text : String) : List String :=
  ((splitSpaceChars (toLowerString text).data).map String.mk)

/-- The forEach loop of textToAnimation (avatarService.ts lines 64-72):
for each word advance the clock by 500 ms and emit a keyframe whose pose
comes from getGestureForWord and whose expression comes from
getExpressionForWord.  Returns the emitted keyframes, the final clock
value, and the index of the next unconsumed random draw. -/
def wordKeyframes (s : ℕ → ℚ) : List String → ℚ → ℕ → List AvatarKeyframe × ℚ × ℕ
  | [], t, k => ([], t, k)
  | w :: ws, t, k =>
    let g := getGestureForWord s k w
    let kf : AvatarKeyframe := ⟨t + 500, g.1.leftArm, g.1.rightArm, g.1.head, getExpressionForWord w⟩
    let r := wordKeyframes s ws (t + 500) g.2
    (kf :: r.1, r.2)

/-- textToAnimation (avatarService.ts lines 50-89): a neutral rest
keyframe at time 0, one keyframe per word each 500 ms apart, and a
closing neutral rest keyframe a further 500 ms after the last word; the
duration is the final timestamp. -/
def textToAnimation (s : ℕ → ℚ) (text : String) : AvatarAnimation :=
  let r := wordKeyframes s (splitWords text) 0 0
  { name := "text-response"
    keyframes := restKeyframe 0 :: r.1 ++ [restKeyframe (r.2.1 + 500)]
    duration := r.2.1 + 500 }

/-- A keyframe carries the neutral rest pose: both arms at the origin
with zero rotation, zero head rotation, neutral expression. -/
def IsRestPose (kf : AvatarKeyframe) : Prop :=
  kf.leftArm = ⟨0, 0, 0⟩ ∧ kf.rightArm = ⟨0, 0, 0⟩ ∧ kf.head = ⟨0⟩ ∧ kf.expression = .neutral

instance (kf : AvatarKeyframe) : Decidable (IsRestPose kf) := by
  unfold IsRestPose; infer_instance

/-- The bracketing-keyframe search loop of interpolatePose
(avatarService.ts lines 189-195): the first adjacent pair whose
timestamps enclose the elapsed time, or none when no pair matches. -/
def findBracketAux (elapsed : ℚ) : List AvatarKeyframe → Option (AvatarKeyframe × AvatarKeyframe)
  | a :: b :: rest =>
    if a.timestamp ≤ elapsed ∧ elapsed ≤ b.timestamp then some (a, b)
    else findBracketAux elapsed (b :: rest)
  | _ => none

/-- The bracketing keyframes used by interpolatePose: the matched pair,
or on no match the defaults set at lines 186-187, the first and last
keyframes. -/
def findBracket (kfs : List AvatarKeyframe) (elapsed : ℚ) : AvatarKeyframe × AvatarKeyframe :=
  match findBracketAux elapsed kfs with
  | some p => p
  | none => (kfs.headD (restKeyframe 0), kfs.getLastD (restKeyframe 0))

/-- The interpolation step of interpolatePose (avatarService.ts lines
197-217): progress is the elapsed fraction between the bracketing
timestamps, or 0 when they coincide; each numeric field is linearly
interpolated, and the expression steps from the earlier to the later
keyframe at progress one half. -/
def interpBetween (prevFrame nextFrame : AvatarKeyframe) (elapsed : ℚ) : AvatarKeyframe :=
  let dur := nextFrame.timestamp - prevFrame.timestamp
  let progress := if dur > 0 then (elapsed - prevFrame.timestamp) / dur else 0
  { timestamp := elapsed
    leftArm :=
      ⟨prevFrame.leftArm.x + (nextFrame.leftArm.x - prevFrame.leftArm.x) * progress,
       prevFrame.leftArm.y + (nextFrame.leftArm.y - prevFrame.leftArm.y) * progress,
       prevFrame.leftArm.rotation +
         (nextFrame.leftArm.rotation - prevFrame.leftArm.rotation) * progress⟩
    rightArm :=
      ⟨prevFrame.rightArm.x + (nextFrame.rightArm.x - prevFrame.rightArm.x) * progress,
       prevFrame.rightArm.y + (nextFrame.rightArm.y - prevFrame.rightArm.y) * progress,
       prevFrame.rightArm.rotation +
         (nextFrame.rightArm.rotation - prevFrame.rightArm.rotation) * progress⟩
    head :=
      ⟨prevFrame.head.rotation + (nextFrame.head.rotation - prevFrame.head.rotation) * progress⟩
    expression := if progress < 1/2 then prevFrame.expression else nextFrame.expression }

/-- interpolatePose (avatarService.ts lines 180-218) over a given
animation: locate the bracketing pair and interpolate between it. -/
def interpolatePose (anim : AvatarAnimation) (elapsed : ℚ) : AvatarKeyframe :=
  interpBetween (findBracket anim.keyframes elapsed).1 (findBracket anim.keyframes elapsed).2
    elapsed

/-- The player-side mutable fields of AvatarService: the current
animation, the wall-clock origin recorded at play start, and the active
flag. -/
structure PlayerState where
  currentAnimation : Option AvatarAnimation
  animationStartTime : ℚ
  isAnimating : Bool
deriving DecidableEq

/-- The synchronous head of playAnimation (avatarService.ts lines
139-141): store the animation, record the start time, mark active. -/
def playStart (st : PlayerState) (anim : AvatarAnimation) (now : ℚ) : PlayerState :=
  { st with currentAnimation := some anim, animationStartTime := now, isAnimating := true }

/-- stopAnimation (avatarService.ts lines 318-320): clear the active
flag and nothing else. -/
def stopAnimation (st : PlayerState) : PlayerState :=
  { st with isAnimating := false }

/-- One firing of the animate callback of playAnimation (avatarService.ts
lines 143-159) at wall-clock time now: if the player is inactive or has
no current animation, no-op and do not reschedule; if the elapsed time
has reached the duration, clear the active flag without rendering;
otherwise render the pose interpolated from the current animation at the
elapsed time.  The returned option carries the render call's animation
and pose, none when no render was issued. -/
def tick (st : PlayerState) (now : ℚ) : PlayerState × Option (AvatarAnimation × AvatarKeyframe) :=
  match st.currentAnimation with
  | none => (st, none)
  | some anim =>
    if st.isAnimating = false then (st, none)
    else if now - st.animationStartTime ≥ anim.duration then
      ({ st with isAnimating := false }, none)
    else (st, some (anim, interpolatePose anim (now - st.animationStartTime)))

/-- A sequence of tick firings at the given wall-clock times, collecting
every render call issued. -/
def runTicks (st : PlayerState) : List ℚ → PlayerState × List (AvatarAnimation × AvatarKeyframe)
  | [] => (st, [])
  | t :: ts =>
    let r := tick st t
    let rest := runTicks r.1 ts
    (rest.1, r.2.toList ++ rest.2)

/-- A well-formed animation as the data-model invariant states it: at
least two keyframes, the first at timestamp 0, timestamps
non-decreasing. -/
def WFAnimation (a : AvatarAnimation) : Prop :=
  2 ≤ a.keyframes.length ∧
  (a.keyframes.map (fun kf => kf.timestamp)).head? = some 0 ∧
  List.Chain' (· ≤ ·) (a.keyframes.map (fun kf => kf.timestamp))

/-- GestureData from src/types: landmarks, confidence and label of one
classified frame. -/
structure GestureData where
  landmarks : List (ℚ × ℚ)
  confidence : ℚ
  gesture : String
deriving DecidableEq

/-- The initialization flags of GestureRecognitionService: the
initialized boolean and whether the model field is non-null. -/
structure ClassifierState where
  initialized : Bool
  hasModel : Bool
deriving DecidableEq

/-- A video frame's intrinsic pixel dimensions, the only frame data the
classifier's guards inspect. -/
structure Frame where
  videoWidth : ℕ
  videoHeight : ℕ
deriving DecidableEq

/-- The fixed label vocabulary of simulateGestureRecognition
(gestureRecognition.ts lines 109-112). -/
def gesturesVocab : List String :=
  ["hello", "thank you", "please", "yes", "no", "help", "good", "bad", "more", "stop"]

/-- simulateGestureRecognition (gestureRecognition.ts lines 107-117):
pick the label at the floor of a random draw scaled by the vocabulary
size; for draws in the unit interval the index is always in range. -/
def simulateGestureRecognition (r : ℚ) : String :=
  gesturesVocab.getD (Int.toNat ⌊r * gesturesVocab.length⌋) ""

/-- processFrame of GestureRecognitionService (gestureRecognition.ts
lines 57-83): throw when not initialized or the model is missing,
return no sample when either intrinsic dimension is zero, otherwise
return a sample whose landmarks come from the synthetic extraction
(modelled as the oracle landmarksOf, since the source drives it from
Date.now and trigonometry), whose confidence is a random draw scaled
into the 0.6 to 1.0 band, and whose label is the simulated gesture of a
second random draw. -/
def processFrame (st : ClassifierState) (frame : Frame)
    (landmarksOf : Frame → List (ℚ × ℚ)) (rConf rGesture : ℚ) :
    Except String (Option GestureData) :=
  if ¬(st.initialized = true ∧ st.hasModel = true) then
    Except.error "Gesture recognition not initialized"
  else if frame.videoWidth = 0 ∨ frame.videoHeight = 0 then
    Except.ok none
  else
    Except.ok (some ⟨landmarksOf frame, rConf * (2/5) + 3/5, simulateGestureRecognition rGesture⟩)

/-- The queue update of the VideoInput processFrame loop
(VideoInput.tsx lines 85-94): a missing sample or one whose confidence
is not strictly above 0.7 leaves the queue unchanged; otherwise the
label is appended unless it equals the queue's last entry. -/
def submitGesture (q : List String) (sample : Option GestureData) : List String :=
  match sample with
  | none => q
  | some g =>
    if g.confidence > 7/10 then
      if q.length = 0 ∨ q.getLast? ≠ some g.gesture then q ++ [g.gesture] else q
    else q

/-- Modelled from the claim's words for comparison with submitGesture:
a sample is ignored exactly when it is missing or its confidence is
strictly below 0.7, and otherwise appended under the same
adjacent-dedup rule. -/
def submitClaimed (q : List String) (sample : Option GestureData) : List String :=
  match sample with
  | none => q
  | some g =>
    if g.confidence < 7/10 then q
    else if q.length = 0 ∨ q.getLast? ≠ some g.gesture then q ++ [g.gesture] else q

/-- The session operations touching the gesture queue in VideoInput.tsx:
startRecording resets it to empty (line 154), the processFrame loop
submits samples, and stopRecording clears it when it is non-empty
(lines 158-178). -/
inductive QueueOp where
  | start
  | submit (sample : Option GestureData)
  | stop

/-- The effect of one queue operation on the queue state. -/
def applyOp (q : List String) : QueueOp → List String
  | .start => []
  | .submit s => submitGesture q s
  | .stop => if 0 < q.length then [] else q

/-- The token-to-display-phrase object literal of convertGestureToText
(gestureRecognition.ts lines 121-132). -/
def gestureMap (g : String) : Option String :=
  if g = "hello" then some "Hello"
  else if g = "thank you" then some "Thank you"
  else if g = "please" then some "Please"
  else if g = "yes" then some "Yes"
  else if g = "no" then some "No"
  else if g = "help" then some "I need help"
  else if g = "good" then some "Good"
  else if g = "bad" then some "Bad"
  else if g = "more" then some "More"
  else if g = "stop" then some "Stop"
  else none

/-- Joining a list of strings with single spaces, the semantics of the
JavaScript join call of gestureRecognition.ts line 136. -/
def joinWithSpace : List String → String
  | [] => ""
  | g :: gs =>
    match gs with
    | [] => g
    | _ :: _ => g ++ " " ++ joinWithSpace gs

/-- convertGestureToText (gestureRecognition.ts lines 119-137): map each
token through the table, unknown tokens passing through unchanged, and
join with single spaces. -/
def convertGestureToText (gestures : List String) : String :=
  joinWithSpace (gestures.map (fun g => (gestureMap g).getD g))

/-- stopRecording's queue consumption (VideoInput.tsx lines 158-178):
when the queue is non-empty, emit the converted text as one message and
clear the queue in the same operation; when it is empty, emit nothing
and leave the queue as is.  The first component is the emitted message,
none when nothing was emitted. -/
def stopRecording (q : List String) : Option String × List String :=
  if 0 < q.length then (some (convertGestureToText q), []) else (none, q)

/-- Helper: the final clock value of the word loop advances by exactly
500 ms per word. -/
lemma wordKeyframes_endTime (s : ℕ → ℚ) :
    ∀ (ws : List String) (t : ℚ) (k : ℕ),
      (wordKeyframes s ws t k).2.1 = t + 500 * ws.length := by
  intro ws
  induction ws with
  | nil => intro t k; simp [wordKeyframes]
  | cons w ws ih =>
    intro t k
    simp only [wordKeyframes, List.length_cons]
    rw [ih]
    push_cast
    ring

/-- Helper: the keyframes of the word loop followed by the closing rest
keyframe have consecutive timestamps exactly 500 ms apart, and the first
of them sits 500 ms after the incoming clock value. -/
lemma wordKeyframes_chain (s : ℕ → ℚ) :
    ∀ (ws : List String) (t : ℚ) (k : ℕ),
      List.Chain' (fun a b => b.timestamp = a.timestamp + 500)
        ((wordKeyframes s ws t k).1 ++ [restKeyframe ((wordKeyframes s ws t k).2.1 + 500)]) ∧
      ∀ x ∈ ((wordKeyframes s ws t k).1 ++
          [restKeyframe ((wordKeyframes s ws t k).2.1 + 500)]).head?,
        x.timestamp = t + 500 := by
  intro ws
  induction ws with
  | nil =>
    intro t k
    refine ⟨List.chain'_singleton _, ?_⟩
    intro x hx
    simp [wordKeyframes] at hx
    simp [← hx, restKeyframe]
  | cons w ws ih =>
    intro t k
    have h := ih (t + 500) (getGestureForWord s k w).2
    constructor
    · simp only [wordKeyframes, List.cons_append]
      refine List.chain'_cons'.2 ⟨?_, h.1⟩
      intro y hy
      have := h.2 y hy
      simpa using this
    · intro x hx
      simp only [wordKeyframes, List.cons_append, List.head?_cons, Option.mem_def,
        Option.some.injEq] at hx
      simp [← hx]

/-- Helper: the length of the word loop's keyframe list equals the word
count. -/
lemma wordKeyframes_length (s : ℕ → ℚ) :
    ∀ (ws : List String) (t : ℚ) (k : ℕ),
      (wordKeyframes s ws t k).1.length = ws.length := by
  intro ws
  induction ws with
  | nil => intro t k; simp [wordKeyframes]
  | cons w ws ih => intro t k; simp [wordKeyframes, ih]

/-- Helper: a random draw v in the unit interval scaled as v * a - b lies
in the interval from -b inclusive to a - b exclusive. -/
lemma rand_scale (v a b : ℚ) (h0 : 0 ≤ v) (h1 : v < 1) (ha : 0 < a) :
    -b ≤ v * a - b ∧ v * a - b < a - b := by
  constructor <;> nlinarith

/-- C1: for every input text (the empty string included), the synthesized
animation has at least 2 keyframes, its keyframe timestamps are
non-decreasing starting at 0, and the first and last keyframes are the
neutral rest pose. -/
theorem c1_synthesize_wellformed (s : ℕ → ℚ) (text : String) :
    2 ≤ (textToAnimation s text).keyframes.length ∧
    ((textToAnimation s text).keyframes.map (fun kf => kf.timestamp)).head? = some 0 ∧
    List.Chain' (· ≤ ·) ((textToAnimation s text).keyframes.map (fun kf => kf.timestamp)) ∧
    (∀ kf ∈ (textToAnimation s text).keyframes.head?, IsRestPose kf) ∧
    (∀ kf ∈ (textToAnimation s text).keyframes.getLast?, IsRestPose kf) := by
  have hchain := wordKeyframes_chain s (splitWords text) 0 0
  refine ⟨?_, ?_, ?_, ?_, ?_⟩
  · simp [textToAnimation]
  · simp [textToAnimation, restKeyframe]
  · rw [List.chain'_map]
    simp only [textToAnimation]
    refine List.chain'_cons'.2 ⟨?_, ?_⟩
    · intro y hy
      have := hchain.2 y hy
      simp only [restKeyframe]
      rw [this]
      linarith
    · exact hchain.1.imp (fun a b h => by rw [h]; linarith)
  · intro kf hkf
    have hh : (textToAnimation s text).keyframes.head? = some (restKeyframe 0) := rfl
    rw [Option.mem_def, hh, Option.some.injEq] at hkf
    rw [← hkf]
    simp [restKeyframe, IsRestPose]
  · intro kf hkf
    rw [Option.mem_def] at hkf
    simp only [textToAnimation, ← List.cons_append, List.getLast?_concat,
      Option.some.injEq] at hkf
    rw [← hkf]
    simp [restKeyframe, IsRestPose]

/-- Witness for C1 at the empty text: the first keyframe of the
synthesized animation is the neutral rest pose. -/
theorem c1_synthesize_wellformed_witness : IsRestPose (restKeyframe 0) :=
  (c1_synthesize_wellformed (fun _ => 0) "").2.2.2.1 (restKeyframe 0) rfl

/-- C8: synthesizing the word hello yields exactly the three keyframes
rest at 0, the tabled hello pose with neutral expression at 500 ms, and
rest at 1000 ms, with total duration 1000 ms; in general consecutive
keyframe timestamps advance by exactly 500 ms per word with one further
500 ms advance before the closing rest keyframe, so the duration is
500 times the word count plus one. -/
theorem c8_hello_and_timing :
    (∀ s : ℕ → ℚ, textToAnimation s "hello" =
      ⟨"text-response",
        [restKeyframe 0,
         ⟨500, ⟨-30, -20, 45⟩, ⟨30, -20, -45⟩, ⟨0⟩, Expression.neutral⟩,
         restKeyframe 1000],
        1000⟩) ∧
    (∀ (s : ℕ → ℚ) (text : String),
      List.Chain' (fun a b => b.timestamp = a.timestamp + 500)
        (textToAnimation s text).keyframes ∧
      ((textToAnimation s text).keyframes.getLast?).map (fun kf => kf.timestamp) =
        some (textToAnimation s text).duration ∧
      (textToAnimation s text).duration = 500 * ((splitWords text).length + 1)) := by
  constructor
  · intro s
    have hkey : textToAnimation s "hello" =
        ⟨"text-response",
          [restKeyframe 0,
           ⟨0 + 500, ⟨-30, -20, 45⟩, ⟨30, -20, -45⟩, ⟨0⟩, Expression.neutral⟩,
           restKeyframe (0 + 500 + 500)],
          0 + 500 + 500⟩ := rfl
    rw [hkey]
    simp only [AvatarAnimation.mk.injEq, List.cons.injEq, AvatarKeyframe.mk.injEq,
      PoseComponent.mk.injEq, HeadPose.mk.injEq, restKeyframe, and_true, true_and]
    norm_num
  · intro s text
    have hchain := wordKeyframes_chain s (splitWords text) 0 0
    have hend := wordKeyframes_endTime s (splitWords text) 0 0
    refine ⟨?_, ?_, ?_⟩
    · simp only [textToAnimation]
      refine List.chain'_cons'.2 ⟨?_, hchain.1⟩
      intro y hy
      have := hchain.2 y hy
      rw [this]
      simp [restKeyframe]
    · have hlast : (textToAnimation s text).keyframes.getLast? =
          some (restKeyframe ((wordKeyframes s (splitWords text) 0 0).2.1 + 500)) := by
        simp only [textToAnimation, ← List.cons_append, List.getLast?_concat]
      rw [hlast]
      rfl
    · simp only [textToAnimation]
      rw [hend]
      ring

/-- C10: synthesizing the empty string yields three keyframes, not two:
splitting the empty string on a space gives the single empty word, which
is out of vocabulary and receives the randomized fallback pose at
timestamp 500 between the two neutral rest keyframes, every random
component lying in its stated bounded range; the duration is 1000 ms. -/
theorem c10_empty_text (s : ℕ → ℚ) (hs : ∀ i, 0 ≤ s i ∧ s i < 1) :
    (textToAnimation s "").keyframes.length = 3 ∧
    (textToAnimation s "").duration = 1000 ∧
    splitWords "" = [""] ∧
    gestureTable "" = none ∧
    (textToAnimation s "").keyframes =
      [restKeyframe 0,
       ⟨500, ⟨s 0 * 40 - 20, s 1 * 20 - 10, s 2 * 60 - 30⟩,
         ⟨s 3 * 40 - 20, s 4 * 20 - 10, s 5 * 60 - 30⟩,
         ⟨s 6 * 20 - 10⟩, Expression.neutral⟩,
       restKeyframe 1000] ∧
    (∀ kf ∈ ((textToAnimation s "").keyframes[1]? : Option AvatarKeyframe),
      ((-20 : ℚ) ≤ kf.leftArm.x ∧ kf.leftArm.x < 20) ∧
      ((-10 : ℚ) ≤ kf.leftArm.y ∧ kf.leftArm.y < 10) ∧
      ((-30 : ℚ) ≤ kf.leftArm.rotation ∧ kf.leftArm.rotation < 30) ∧
      ((-20 : ℚ) ≤ kf.rightArm.x ∧ kf.rightArm.x < 20) ∧
      ((-10 : ℚ) ≤ kf.rightArm.y ∧ kf.rightArm.y < 10) ∧
      ((-30 : ℚ) ≤ kf.rightArm.rotation ∧ kf.rightArm.rotation < 30) ∧
      ((-10 : ℚ) ≤ kf.head.rotation ∧ kf.head.rotation < 10)) := by
  have hw : splitWords "" = [""] := by decide
  have hg : gestureTable "" = none := rfl
  have hkfs0 : (textToAnimation s "").keyframes =
      [restKeyframe 0,
       ⟨0 + 500, ⟨s 0 * 40 - 20, s 1 * 20 - 10, s 2 * 60 - 30⟩,
         ⟨s 3 * 40 - 20, s 4 * 20 - 10, s 5 * 60 - 30⟩,
         ⟨s 6 * 20 - 10⟩, Expression.neutral⟩,
       restKeyframe (0 + 500 + 500)] := rfl
  have hkfs : (textToAnimation s "").keyframes =
      [restKeyframe 0,
       ⟨500, ⟨s 0 * 40 - 20, s 1 * 20 - 10, s 2 * 60 - 30⟩,
         ⟨s 3 * 40 - 20, s 4 * 20 - 10, s 5 * 60 - 30⟩,
         ⟨s 6 * 20 - 10⟩, Expression.neutral⟩,
       restKeyframe 1000] := by
    rw [hkfs0]
    simp only [List.cons.injEq, AvatarKeyframe.mk.injEq, PoseComponent.mk.injEq,
      HeadPose.mk.injEq, restKeyframe, and_true, true_and]
    norm_num
  have hdur : (textToAnimation s "").duration = 0 + 500 + 500 := rfl
  refine ⟨?_, ?_, hw, hg, hkfs, ?_⟩
  · rw [hkfs]; rfl
  · rw [hdur]; norm_num
  · intro kf hkf
    rw [hkfs] at hkf
    simp only [List.getElem?_cons_succ, List.getElem?_cons_zero, Option.mem_def,
      Option.some.injEq] at hkf
    rw [← hkf]
    dsimp only
    refine ⟨?_, ?_, ?_, ?_, ?_, ?_, ?_⟩
    · have h := rand_scale (s 0) 40 20 (hs 0).1 (hs 0).2 (by norm_num)
      exact ⟨h.1, by linarith [h.2]⟩
    · have h := rand_scale (s 1) 20 10 (hs 1).1 (hs 1).2 (by norm_num)
      exact ⟨h.1, by linarith [h.2]⟩
    · have h := rand_scale (s 2) 60 30 (hs 2).1 (hs 2).2 (by norm_num)
      exact ⟨h.1, by linarith [h.2]⟩
    · have h := rand_scale (s 3) 40 20 (hs 3).1 (hs 3).2 (by norm_num)
      exact ⟨h.1, by linarith [h.2]⟩
    · have h := rand_scale (s 4) 20 10 (hs 4).1 (hs 4).2 (by norm_num)
      exact ⟨h.1, by linarith [h.2]⟩
    · have h := rand_scale (s 5) 60 30 (hs 5).1 (hs 5).2 (by norm_num)
      exact ⟨h.1, by linarith [h.2]⟩
    · have h := rand_scale (s 6) 20 10 (hs 6).1 (hs 6).2 (by norm_num)
      exact ⟨h.1, by linarith [h.2]⟩

/-- Witness for C10 at the constant one-half random stream: the empty
text synthesizes to three keyframes with duration 1000 ms. -/
theorem c10_empty_text_witness :
    (textToAnimation (fun _ => (1 : ℚ)/2) "").keyframes.length = 3 ∧
    (textToAnimation (fun _ => (1 : ℚ)/2) "").duration = 1000 :=
  ⟨(c10_empty_text (fun _ => (1 : ℚ)/2) (fun _ => ⟨by norm_num, by norm_num⟩)).1,
   (c10_empty_text (fun _ => (1 : ℚ)/2) (fun _ => ⟨by norm_num, by norm_num⟩)).2.1⟩

/-- Helper: a tick never changes the stored animation, and any render it
issues is computed from that stored animation. -/
lemma runTicks_current_anim :
    ∀ (ts : List ℚ) (st : PlayerState) (a : AvatarAnimation),
      st.currentAnimation = some a →
      (runTicks st ts).1.currentAnimation = some a ∧
      ∀ o ∈ (runTicks st ts).2, o.1 = a := by
  intro ts
  induction ts with
  | nil =>
    intro st a h
    exact ⟨h, by simp [runTicks]⟩
  | cons t ts ih =>
    intro st a h
    have htick : (tick st t).1.currentAnimation = some a ∧ ∀ o ∈ (tick st t).2, o.1 = a := by
      simp only [tick, h]
      by_cases h1 : st.isAnimating = false
      · simp [h1, h]
      · simp only [h1, if_false]
        by_cases h2 : t - st.animationStartTime ≥ a.duration
        · simp [h2, h]
        · simp [h2, h]
    have hrest := ih (tick st t).1 a htick.1
    refine ⟨by simpa [runTicks] using hrest.1, ?_⟩
    intro o ho
    simp only [runTicks] at ho
    rw [List.mem_append] at ho
    cases ho with
    | inl hin => exact htick.2 o (by simpa using hin)
    | inr hin => exact hrest.2 o hin

/-- C3: a second play on the same player with no intervening stop
supersedes the first animation with no queueing: immediately after the
second play the player stores exactly the second animation and is
active, and however the scheduled ticks fire from then on, the stored
animation remains the second one and every render call issued is
computed from the second animation. -/
theorem c3_play_supersedes (st : PlayerState) (a2 : AvatarAnimation) (t2 : ℚ) (ts : List ℚ) :
    (playStart st a2 t2).currentAnimation = some a2 ∧
    (playStart st a2 t2).isAnimating = true ∧
    (runTicks (playStart st a2 t2) ts).1.currentAnimation = some a2 ∧
    ∀ o ∈ (runTicks (playStart st a2 t2) ts).2, o.1 = a2 := by
  have h := runTicks_current_anim ts (playStart st a2 t2) a2 rfl
  exact ⟨rfl, rfl, h.1, h.2⟩

/-- Witness for C3: starting the empty-text animation over a player that
is still actively playing the hello animation leaves the second
animation stored after a tick fires. -/
theorem c3_play_supersedes_witness :
    (runTicks
        (playStart
          ⟨some (textToAnimation (fun _ => 0) "hello"), 0, true⟩
          (textToAnimation (fun _ => 0) "") 0)
        [100]).1.currentAnimation =
      some (textToAnimation (fun _ => 0) "") :=
  (c3_play_supersedes ⟨some (textToAnimation (fun _ => 0) "hello"), 0, true⟩
    (textToAnimation (fun _ => 0) "") 0 [100]).2.2.1

/-- Helper: an inactive player is left untouched by any sequence of
ticks and issues no render calls. -/
lemma runTicks_inactive :
    ∀ (ts : List ℚ) (st : PlayerState), st.isAnimating = false → runTicks st ts = (st, []) := by
  intro ts
  induction ts with
  | nil => intro st h; rfl
  | cons t ts ih =>
    intro st h
    have ht : tick st t = (st, none) := by
      unfold tick
      cases hc : st.currentAnimation with
      | none => rfl
      | some a => simp [h]
    simp [runTicks, ht, ih st h]

/-- C5: stopping is idempotent and usable in any state; it leaves the
player inactive; an inactive player no-ops on every tick, scheduled ones
included, issuing no render calls; and a tick that observes elapsed time
at or beyond the animation's duration deactivates the player without
rendering, after which all later ticks issue no render calls either. -/
theorem c5_stop_and_completion :
    (∀ st : PlayerState, stopAnimation (stopAnimation st) = stopAnimation st) ∧
    (∀ st : PlayerState, (stopAnimation st).isAnimating = false) ∧
    (∀ (st : PlayerState) (ts : List ℚ), st.isAnimating = false → runTicks st ts = (st, [])) ∧
    (∀ (st : PlayerState) (ts : List ℚ),
      runTicks (stopAnimation st) ts = (stopAnimation st, [])) ∧
    (∀ (st : PlayerState) (a : AvatarAnimation) (now : ℚ) (ts : List ℚ),
      st.currentAnimation = some a → st.isAnimating = true →
      now - st.animationStartTime ≥ a.duration →
      runTicks st (now :: ts) = ({ st with isAnimating := false }, [])) := by
  refine ⟨fun st => rfl, fun st => rfl, fun st ts h => runTicks_inactive ts st h, ?_, ?_⟩
  · intro st ts
    exact runTicks_inactive ts (stopAnimation st) rfl
  · intro st a now ts hcur hact hdur
    have ht : tick st now = ({ st with isAnimating := false }, none) := by
      unfold tick
      rw [hcur]
      simp [hact, hdur]
    have hrest := runTicks_inactive ts { st with isAnimating := false } rfl
    simp [runTicks, ht, hrest]

/-- Witness for C5: an inactive player ignores a scheduled tick, and an
active player whose hello animation has run past its duration
deactivates and renders nothing. -/
theorem c5_stop_and_completion_witness :
    runTicks ⟨none, 0, false⟩ [42] = (⟨none, 0, false⟩, []) ∧
    runTicks ⟨some (textToAnimation (fun _ => 0) "hello"), 0, true⟩ [2000] =
      (⟨some (textToAnimation (fun _ => 0) "hello"), 0, false⟩, []) :=
  ⟨c5_stop_and_completion.2.2.1 ⟨none, 0, false⟩ [42] rfl,
   c5_stop_and_completion.2.2.2.2 ⟨some (textToAnimation (fun _ => 0) "hello"), 0, true⟩
    (textToAnimation (fun _ => 0) "hello") 2000 [] rfl rfl
    (by rw [show (textToAnimation (fun _ => 0) "hello").duration = 0 + 500 + 500 from rfl]
        norm_num)⟩

/-- Helper: when the computed progress is zero, interpolation returns
the earlier keyframe's pose fields with the elapsed time as
timestamp. -/
lemma interpBetween_of_progress_zero (p n : AvatarKeyframe) (e : ℚ)
    (h : (if n.timestamp - p.timestamp > 0
        then (e - p.timestamp) / (n.timestamp - p.timestamp) else 0) = 0) :
    interpBetween p n e = ⟨e, p.leftArm, p.rightArm, p.head, p.expression⟩ := by
  simp only [interpBetween]
  rw [h]
  norm_num

/-- Helper: the bracket search skips over every adjacent pair whose
second timestamp is strictly below the elapsed time. -/
lemma findBracketAux_skip (e : ℚ) :
    ∀ (l₁ rest : List AvatarKeyframe),
      (∀ x ∈ l₁, x.timestamp < e) →
      (∀ x ∈ rest.head?, x.timestamp < e) →
      findBracketAux e (l₁ ++ rest) = findBracketAux e rest := by
  intro l₁
  induction l₁ with
  | nil => intro rest _ _; rfl
  | cons a l ih =>
    intro rest h1 h2
    cases l with
    | nil =>
      cases rest with
      | nil => rfl
      | cons r rs =>
        have hr : r.timestamp < e := h2 r rfl
        have hcond : ¬(a.timestamp ≤ e ∧ e ≤ r.timestamp) := by
          rintro ⟨_, hle⟩
          linarith
        show findBracketAux e (a :: r :: rs) = findBracketAux e (r :: rs)
        rw [show findBracketAux e (a :: r :: rs) =
          if a.timestamp ≤ e ∧ e ≤ r.timestamp then some (a, r)
          else findBracketAux e (r :: rs) from rfl]
        rw [if_neg hcond]
    | cons c l' =>
      have hc : c.timestamp < e := h1 c (by simp)
      have hcond : ¬(a.timestamp ≤ e ∧ e ≤ c.timestamp) := by
        rintro ⟨_, hle⟩
        linarith
      show findBracketAux e (a :: c :: (l' ++ rest)) = findBracketAux e rest
      rw [show findBracketAux e (a :: c :: (l' ++ rest)) =
        if a.timestamp ≤ e ∧ e ≤ c.timestamp then some (a, c)
        else findBracketAux e (c :: (l' ++ rest)) from rfl]
      rw [if_neg hcond]
      rw [show (c :: (l' ++ rest) : List AvatarKeyframe) = (c :: l') ++ rest from rfl]
      exact ih rest (fun x hx => h1 x (by simp [hx])) h2

/-- C4: interpolation over a well-formed animation returns the first
keyframe exactly at elapsed time 0; at the exact midpoint between two
adjacent keyframes with distinct timestamps every numeric pose field is
the arithmetic mean of the two keyframes' values; a bracketing pair with
equal timestamps yields progress 0 and hence the earlier keyframe's
pose; and the expression steps from the earlier keyframe's to the later
keyframe's at progress one half. -/
theorem c4_interpolation :
    (∀ (anim : AvatarAnimation) (k0 : AvatarKeyframe), WFAnimation anim →
      anim.keyframes.head? = some k0 → interpolatePose anim 0 = k0) ∧
    (∀ (nm : String) (dur : ℚ) (l₁ l₂ : List AvatarKeyframe) (a b : AvatarKeyframe),
      List.Chain' (· ≤ ·) ((l₁ ++ a :: b :: l₂).map (fun kf => kf.timestamp)) →
      a.timestamp < b.timestamp →
      interpolatePose ⟨nm, l₁ ++ a :: b :: l₂, dur⟩ ((a.timestamp + b.timestamp) / 2) =
        ⟨(a.timestamp + b.timestamp) / 2,
         ⟨(a.leftArm.x + b.leftArm.x) / 2, (a.leftArm.y + b.leftArm.y) / 2,
          (a.leftArm.rotation + b.leftArm.rotation) / 2⟩,
         ⟨(a.rightArm.x + b.rightArm.x) / 2, (a.rightArm.y + b.rightArm.y) / 2,
          (a.rightArm.rotation + b.rightArm.rotation) / 2⟩,
         ⟨(a.head.rotation + b.head.rotation) / 2⟩,
         b.expression⟩) ∧
    (∀ (p n : AvatarKeyframe) (e : ℚ), p.timestamp = n.timestamp →
      interpBetween p n e = ⟨e, p.leftArm, p.rightArm, p.head, p.expression⟩) ∧
    (∀ (p n : AvatarKeyframe) (e : ℚ),
      ((if n.timestamp - p.timestamp > 0
          then (e - p.timestamp) / (n.timestamp - p.timestamp) else 0) < 1/2 →
        (interpBetween p n e).expression = p.expression) ∧
      (¬(if n.timestamp - p.timestamp > 0
          then (e - p.timestamp) / (n.timestamp - p.timestamp) else 0) < 1/2 →
        (interpBetween p n e).expression = n.expression)) := by
  refine ⟨?_, ?_, ?_, ?_⟩
  · intro anim k0 hwf hhead
    obtain ⟨hlen, hts0, hch⟩ := hwf
    match hkfs : anim.keyframes, hlen with
    | k :: k1 :: rest, _ =>
      rw [hkfs] at hhead hts0 hch
      simp only [List.head?_cons, Option.some.injEq] at hhead
      simp only [List.map_cons, List.head?_cons, Option.some.injEq] at hts0
      rw [List.map_cons, List.map_cons, List.chain'_cons] at hch
      have h01 : (0 : ℚ) ≤ k1.timestamp := by
        rw [← hts0]
        exact hch.1
      have haux : findBracketAux 0 (k :: k1 :: rest) = some (k, k1) := by
        rw [show findBracketAux 0 (k :: k1 :: rest) =
          if k.timestamp ≤ 0 ∧ 0 ≤ k1.timestamp then some (k, k1)
          else findBracketAux 0 (k1 :: rest) from rfl]
        rw [if_pos ⟨le_of_eq hts0, h01⟩]
      have hbr : findBracket anim.keyframes 0 = (k, k1) := by
        rw [hkfs]
        simp [findBracket, haux]
      have hzero : (if k1.timestamp - k.timestamp > 0
          then ((0 : ℚ) - k.timestamp) / (k1.timestamp - k.timestamp) else 0) = 0 := by
        rw [hts0]
        split
        · simp
        · rfl
      rw [interpolatePose, hbr]
      rw [interpBetween_of_progress_zero k k1 0 hzero]
      rw [hhead] at hts0 ⊢
      rw [show (⟨0, k0.leftArm, k0.rightArm, k0.head, k0.expression⟩ : AvatarKeyframe) =
        ⟨k0.timestamp, k0.leftArm, k0.rightArm, k0.head, k0.expression⟩ from by rw [hts0]]
  · intro nm dur l₁ l₂ a b hch hab
    have ha2 : a.timestamp < (a.timestamp + b.timestamp) / 2 := by linarith
    have hb2 : (a.timestamp + b.timestamp) / 2 < b.timestamp := by linarith
    have hpw : List.Pairwise (· ≤ ·) ((l₁ ++ a :: b :: l₂).map (fun kf => kf.timestamp)) :=
      List.chain'_iff_pairwise.mp hch
    rw [List.map_append, List.pairwise_append] at hpw
    have hpre : ∀ x ∈ l₁, x.timestamp < (a.timestamp + b.timestamp) / 2 := by
      intro x hx
      have hxa : x.timestamp ≤ a.timestamp :=
        hpw.2.2 x.timestamp (List.mem_map_of_mem _ hx) a.timestamp (by simp)
      linarith
    have haux : findBracketAux ((a.timestamp + b.timestamp) / 2) (l₁ ++ a :: b :: l₂) =
        some (a, b) := by
      rw [findBracketAux_skip _ l₁ (a :: b :: l₂) hpre
        (by intro x hx
            have hxa : a = x := by simpa using hx
            rw [← hxa]
            exact ha2)]
      rw [show findBracketAux ((a.timestamp + b.timestamp) / 2) (a :: b :: l₂) =
        if a.timestamp ≤ (a.timestamp + b.timestamp) / 2 ∧
            (a.timestamp + b.timestamp) / 2 ≤ b.timestamp then some (a, b)
        else findBracketAux ((a.timestamp + b.timestamp) / 2) (b :: l₂) from rfl]
      rw [if_pos ⟨le_of_lt ha2, le_of_lt hb2⟩]
    have hne : b.timestamp - a.timestamp ≠ 0 := by linarith
    have hprog : (if b.timestamp - a.timestamp > 0
        then ((a.timestamp + b.timestamp) / 2 - a.timestamp) / (b.timestamp - a.timestamp)
        else 0) = 1/2 := by
      rw [if_pos (by linarith : b.timestamp - a.timestamp > 0)]
      field_simp
      ring
    rw [interpolatePose]
    rw [show findBracket (⟨nm, l₁ ++ a :: b :: l₂, dur⟩ : AvatarAnimation).keyframes
        ((a.timestamp + b.timestamp) / 2) = (a, b) from by simp [findBracket, haux]]
    simp only [interpBetween]
    rw [hprog]
    simp only [AvatarKeyframe.mk.injEq, PoseComponent.mk.injEq, HeadPose.mk.injEq]
    refine ⟨trivial, ⟨by ring, by ring, by ring⟩, ⟨by ring, by ring, by ring⟩, by ring, ?_⟩
    rw [if_neg (lt_irrefl (1/2 : ℚ))]
  · intro p n e h
    refine interpBetween_of_progress_zero p n e ?_
    rw [if_neg (by rw [h]; simp)]
  · intro p n e
    constructor
    · intro h
      simp only [interpBetween]
      rw [if_pos h]
    · intro h
      simp only [interpBetween]
      rw [if_neg h]

/-- Witness for C4: a two-keyframe rest animation is well formed and
interpolates at elapsed 0 to its first keyframe. -/
theorem c4_interpolation_witness :
    WFAnimation ⟨"w", [restKeyframe 0, restKeyframe 500], 500⟩ ∧
    interpolatePose ⟨"w", [restKeyframe 0, restKeyframe 500], 500⟩ 0 = restKeyframe 0 := by
  have hwf : WFAnimation ⟨"w", [restKeyframe 0, restKeyframe 500], 500⟩ := by
    refine ⟨by norm_num, by simp [restKeyframe], ?_⟩
    simp only [List.map_cons, List.map_nil, restKeyframe]
    refine List.chain'_cons.2 ⟨by norm_num, List.chain'_singleton _⟩
  exact ⟨hwf, c4_interpolation.1 ⟨"w", [restKeyframe 0, restKeyframe 500], 500⟩
    (restKeyframe 0) hwf rfl⟩

/-- C2 counterexample: at confidence exactly 0.7 the code's strict gate
drops the sample, while the claim's below-threshold wording would admit
it, so the two disagree on the empty queue. -/
theorem c2_submit_counterexample :
    submitGesture [] (some ⟨[], 7/10, "a"⟩) = [] ∧
    submitClaimed [] (some ⟨[], 7/10, "a"⟩) = ["a"] ∧
    submitGesture [] (some ⟨[], 7/10, "a"⟩) ≠ submitClaimed [] (some ⟨[], 7/10, "a"⟩) := by
  refine ⟨?_, ?_, ?_⟩
  · norm_num [submitGesture]
  · norm_num [submitClaimed]
  · norm_num [submitGesture, submitClaimed]

/-- C2 as amended: a missing sample or one with confidence at or below
0.7 leaves the queue unchanged; a sample strictly above 0.7 appends its
label when the queue is empty or ends in a different label and is
ignored when the queue already ends in that label; the five-sample
example yields the queue a, b, a. -/
theorem c2_submit_gate_dedup :
    (∀ q : List String, submitGesture q none = q) ∧
    (∀ (q : List String) (g : GestureData),
      g.confidence ≤ 7/10 → submitGesture q (some g) = q) ∧
    (∀ (q : List String) (g : GestureData), 7/10 < g.confidence →
      (q.length = 0 ∨ q.getLast? ≠ some g.gesture) →
      submitGesture q (some g) = q ++ [g.gesture]) ∧
    (∀ (q : List String) (g : GestureData), 7/10 < g.confidence →
      q.getLast? = some g.gesture → submitGesture q (some g) = q) ∧
    List.foldl submitGesture []
      [some ⟨[], 9/10, "a"⟩, some ⟨[], 9/10, "a"⟩, some ⟨[], 4/5, "b"⟩,
       some ⟨[], 3/4, "a"⟩, some ⟨[], 1/2, "a"⟩] = ["a", "b", "a"] := by
  refine ⟨fun q => rfl, ?_, ?_, ?_, ?_⟩
  · intro q g h
    simp only [submitGesture]
    rw [if_neg (by exact not_lt.mpr h)]
  · intro q g h hc
    simp only [submitGesture]
    rw [if_pos (by exact h), if_pos hc]
  · intro q g h hlast
    simp only [submitGesture]
    rw [if_pos (by exact h), if_neg ?_]
    rintro (hlen | hne)
    · rw [List.length_eq_zero] at hlen
      rw [hlen] at hlast
      simp at hlast
    · exact hne hlast
  · norm_num [submitGesture, List.foldl]
    all_goals simp +decide

/-- Witness for C2's amended statement: a below-or-at-threshold sample
is dropped and an above-threshold one is appended to the empty queue. -/
theorem c2_submit_gate_dedup_witness :
    submitGesture [] (some ⟨[], 3/5, "a"⟩) = [] ∧
    submitGesture [] (some ⟨[], 9/10, "a"⟩) = [] ++ ["a"] :=
  ⟨c2_submit_gate_dedup.2.1 [] ⟨[], 3/5, "a"⟩ (by norm_num),
   c2_submit_gate_dedup.2.2.1 [] ⟨[], 9/10, "a"⟩ (by norm_num) (Or.inl rfl)⟩

/-- Helper: submitting one sample preserves freedom from adjacent
duplicates. -/
lemma submitGesture_chain (q : List String) (s : Option GestureData)
    (h : List.Chain' (· ≠ ·) q) : List.Chain' (· ≠ ·) (submitGesture q s) := by
  cases s with
  | none => exact h
  | some g =>
    simp only [submitGesture]
    split
    · split
      · rename_i hc
        rw [List.chain'_append]
        refine ⟨h, List.chain'_singleton _, ?_⟩
        intro x hx y hy
        have hy' : g.gesture = y := by simpa using hy
        cases hc with
        | inl hlen =>
          rw [List.length_eq_zero] at hlen
          rw [hlen] at hx
          simp at hx
        | inr hne =>
          have hx' : q.getLast? = some x := hx
          intro hxy
          exact hne (by rw [hx', hxy, ← hy'])
      · exact h
    · exact h

/-- C9: starting from the empty queue, every sequence of start, submit
and stop operations leaves a queue with no two equal adjacent
entries. -/
theorem c9_no_adjacent_duplicates (ops : List QueueOp) :
    List.Chain' (· ≠ ·) (List.foldl applyOp [] ops) := by
  suffices h : ∀ (ops : List QueueOp) (q : List String),
      List.Chain' (· ≠ ·) q → List.Chain' (· ≠ ·) (List.foldl applyOp q ops) by
    exact h ops [] List.chain'_nil
  intro ops
  induction ops with
  | nil => intro q h; simpa using h
  | cons op ops ih =>
    intro q h
    rw [List.foldl_cons]
    refine ih _ ?_
    cases op with
    | start => exact List.chain'_nil
    | submit s => exact submitGesture_chain q s h
    | stop =>
      simp only [applyOp]
      split
      · exact List.chain'_nil
      · exact h

/-- C6: stopping with a non-empty queue emits exactly the queue's tokens
mapped through the display table (unknown tokens unchanged) joined with
single spaces, and clears the queue in the same operation; the hello and
help tokens map to their display phrases; stopping with an empty queue
emits nothing, whose joined text is the empty string, and leaves the
queue empty; and a second consecutive stop emits nothing. -/
theorem c6_stop_converts_and_clears :
    (∀ q : List String, q ≠ [] →
      stopRecording q = (some (joinWithSpace (q.map (fun g => (gestureMap g).getD g))), [])) ∧
    ((gestureMap "hello").getD "hello" = "Hello") ∧
    ((gestureMap "help").getD "help" = "I need help") ∧
    (∀ t : String, gestureMap t = none → (gestureMap t).getD t = t) ∧
    (convertGestureToText [] = "") ∧
    (stopRecording [] = (none, [])) ∧
    (∀ q : List String, stopRecording ((stopRecording q).2) = (none, [])) := by
  refine ⟨?_, by decide, by decide, ?_, rfl, rfl, ?_⟩
  · intro q h
    simp only [stopRecording, convertGestureToText]
    rw [if_pos (List.length_pos.mpr h)]
  · intro t h
    rw [h]
    rfl
  · intro q
    by_cases h : 0 < q.length
    · have h2 : (stopRecording q).2 = [] := by
        simp only [stopRecording]
        rw [if_pos h]

      rw [h2]
      rfl
    · have h2 : (stopRecording q).2 = q := by
        simp only [stopRecording]
        rw [if_neg h]
      have hq : q = [] := by
        cases q with
        | nil => rfl
        | cons a l => simp at h
      rw [h2, hq]
      rfl

/-- Witness for C6: stopping with the queue holding hello and an unknown
token emits the mapped join, and an unknown token passes through the
table unchanged. -/
theorem c6_stop_converts_and_clears_witness :
    stopRecording ["hello", "abc"] =
      (some (joinWithSpace (["hello", "abc"].map (fun g => (gestureMap g).getD g))), []) ∧
    (gestureMap "abc").getD "abc" = "abc" :=
  ⟨c6_stop_converts_and_clears.1 ["hello", "abc"] (by decide),
   c6_stop_converts_and_clears.2.2.2.1 "abc" (by decide)⟩

/-- C7: classifying before successful initialization fails with the
uninitialized error; once initialized, a frame with a zero intrinsic
width or height yields no sample rather than an error. -/
theorem c7_classify_guards :
    (∀ (st : ClassifierState) (frame : Frame) (lmk : Frame → List (ℚ × ℚ)) (r1 r2 : ℚ),
      ¬(st.initialized = true ∧ st.hasModel = true) →
      processFrame st frame lmk r1 r2 = Except.error "Gesture recognition not initialized") ∧
    (∀ (st : ClassifierState) (frame : Frame) (lmk : Frame → List (ℚ × ℚ)) (r1 r2 : ℚ),
      st.initialized = true → st.hasModel = true →
      (frame.videoWidth = 0 ∨ frame.videoHeight = 0) →
      processFrame st frame lmk r1 r2 = Except.ok none) := by
  constructor
  · intro st frame lmk r1 r2 h
    simp only [processFrame]
    rw [if_pos h]
  · intro st frame lmk r1 r2 h1 h2 hdim
    simp only [processFrame]
    rw [if_neg (by simp [h1, h2]), if_pos hdim]

/-- Witness for C7: an uninitialized classifier errors on a full frame,
and an initialized one returns no sample on a zero-width frame. -/
theorem c7_classify_guards_witness :
    processFrame ⟨false, false⟩ ⟨640, 480⟩ (fun _ => []) 0 0 =
      Except.error "Gesture recognition not initialized" ∧
    processFrame ⟨true, true⟩ ⟨0, 480⟩ (fun _ => []) 0 0 = Except.ok none :=
  ⟨c7_classify_guards.1 ⟨false, false⟩ ⟨640, 480⟩ (fun _ => []) 0 0 (by simp),
   c7_classify_guards.2 ⟨true, true⟩ ⟨0, 480⟩ (fun _ => []) 0 0 rfl rfl (Or.inl rfl)⟩

end SignBot
